import Mathlib

/-!
# Verification of the NASL built-in AES-CCM cryptography family

A shallow embedding of `nasl-interpreter/src/built_in_functions/cryptography/aes_ccm.rs`
and of the outcome-verification logic of `nasl-interpreter/src/test_utils.rs`,
together with proofs of the specified properties.

Bytes are modelled as `Nat` values in `[0, 255]`; byte sequences as `List Nat`.
The underlying primitives (the `aes` and `ccm` RustCrypto crates) are embedded
as executable Lean functions implementing AES (FIPS 197) and CCM (RFC 3610)
with a fixed 16-byte tag, exactly the instantiation `Ccm<AesNNN, U16, N>` the
source selects.
-/

set_option maxRecDepth 100000

namespace AesCcmSpec

/-! ## The AES block cipher (the `aes` crate, FIPS 197, encryption direction)

CCM uses only the forward (encryption) direction of the block cipher, both for
encryption and decryption, so only that direction is embedded. The state is a
flat list of 16 bytes; index `i` holds row `i % 4`, column `i / 4`, matching
the byte order of the standard. -/

/-- The AES S-box (FIPS 197 figure 7), as a 256-entry table. -/
def sboxTable : List Nat :=
  [99, 124, 119, 123, 242, 107, 111, 197, 48, 1, 103, 43, 254, 215, 171, 118,
   202, 130, 201, 125, 250, 89, 71, 240, 173, 212, 162, 175, 156, 164, 114, 192,
   183, 253, 147, 38, 54, 63, 247, 204, 52, 165, 229, 241, 113, 216, 49, 21,
   4, 199, 35, 195, 24, 150, 5, 154, 7, 18, 128, 226, 235, 39, 178, 117,
   9, 131, 44, 26, 27, 110, 90, 160, 82, 59, 214, 179, 41, 227, 47, 132,
   83, 209, 0, 237, 32, 252, 177, 91, 106, 203, 190, 57, 74, 76, 88, 207,
   208, 239, 170, 251, 67, 77, 51, 133, 69, 249, 2, 127, 80, 60, 159, 168,
   81, 163, 64, 143, 146, 157, 56, 245, 188, 182, 218, 33, 16, 255, 243, 210,
   205, 12, 19, 236, 95, 151, 68, 23, 196, 167, 126, 61, 100, 93, 25, 115,
   96, 129, 79, 220, 34, 42, 144, 136, 70, 238, 184, 20, 222, 94, 11, 219,
   224, 50, 58, 10, 73, 6, 36, 92, 194, 211, 172, 98, 145, 149, 228, 121,
   231, 200, 55, 109, 141, 213, 78, 169, 108, 86, 244, 234, 101, 122, 174, 8,
   186, 120, 37, 46, 28, 166, 180, 198, 232, 221, 116, 31, 75, 189, 139, 138,
   112, 62, 181, 102, 72, 3, 246, 14, 97, 53, 87, 185, 134, 193, 29, 158,
   225, 248, 152, 17, 105, 217, 142, 148, 155, 30, 135, 233, 206, 85, 40, 223,
   140, 161, 137, 13, 191, 230, 66, 104, 65, 153, 45, 15, 176, 84, 187, 22]

/-- S-box lookup of a single byte. -/
def sb (b : Nat) : Nat := sboxTable.getD b 0

/-- Multiplication by `x` in GF(2^8) modulo `x^8 + x^4 + x^3 + x + 1`. -/
def xtime (b : Nat) : Nat := if b < 128 then 2 * b else (2 * b - 256) ^^^ 27

/-- Multiplication by 2 in GF(2^8). -/
def mul2 (b : Nat) : Nat := xtime b

/-- Multiplication by 3 in GF(2^8). -/
def mul3 (b : Nat) : Nat := xtime b ^^^ b

/-- The round constants `Rcon[1..10]`. -/
def rconTable : List Nat := [1, 2, 4, 8, 16, 32, 64, 128, 27, 54]

/-- `Rcon[i]` as a byte. -/
def rcon (i : Nat) : Nat := rconTable.getD (i - 1) 0

/-- Rotate a 4-byte word left by one byte. -/
def rotWord (w : List Nat) : List Nat :=
  [w.getD 1 0, w.getD 2 0, w.getD 3 0, w.getD 0 0]

/-- Apply the S-box to each byte of a 4-byte word. -/
def subWord (w : List Nat) : List Nat :=
  [sb (w.getD 0 0), sb (w.getD 1 0), sb (w.getD 2 0), sb (w.getD 3 0)]

/-- XOR two 4-byte words. -/
def xorWord (a b : List Nat) : List Nat :=
  [a.getD 0 0 ^^^ b.getD 0 0, a.getD 1 0 ^^^ b.getD 1 0,
   a.getD 2 0 ^^^ b.getD 2 0, a.getD 3 0 ^^^ b.getD 3 0]

/-- The next word of the FIPS 197 key expansion, given the words built so far. -/
def nextWord (nk : Nat) (ws : List (List Nat)) : List Nat :=
  let i := ws.length
  let temp := ws.getLastD []
  let temp :=
    if i % nk = 0 then xorWord (subWord (rotWord temp)) [rcon (i / nk), 0, 0, 0]
    else if 6 < nk ∧ i % nk = 4 then subWord temp
    else temp
  xorWord (ws.getD (i - nk) []) temp

/-- Append `n` further expanded words to `ws`. -/
def expandWords (nk : Nat) : Nat → List (List Nat) → List (List Nat)
  | 0, ws => ws
  | n + 1, ws => expandWords nk n (ws ++ [nextWord nk ws])

/-- The initial words of the key schedule: the key split into 4-byte words. -/
def keyWords (nk : Nat) (key : List Nat) : List (List Nat) :=
  (List.range nk).map fun i =>
    [key.getD (4 * i) 0, key.getD (4 * i + 1) 0,
     key.getD (4 * i + 2) 0, key.getD (4 * i + 3) 0]

/-- Round key `j` (16 bytes): words `4j .. 4j+3` flattened. -/
def roundKey (ws : List (List Nat)) (j : Nat) : List Nat :=
  (List.range 16).map fun t => (ws.getD (4 * j + t / 4) []).getD (t % 4) 0

/-- The full key schedule: `nr + 1` round keys of 16 bytes, where
`nk = keylen / 4` and `nr = nk + 6` (FIPS 197 for 128/192/256-bit keys). -/
def keySchedule (key : List Nat) : List (List Nat) :=
  let nk := key.length / 4
  let nr := nk + 6
  let ws := expandWords nk (4 * (nr + 1) - nk) (keyWords nk key)
  (List.range (nr + 1)).map (roundKey ws)

/-- XOR the state with a round key. -/
def addRoundKey (s k : List Nat) : List Nat :=
  (List.range 16).map fun i => s.getD i 0 ^^^ k.getD i 0

/-- SubBytes on the 16-byte state. -/
def subBytes (s : List Nat) : List Nat :=
  (List.range 16).map fun i => sb (s.getD i 0)

/-- The ShiftRows permutation on the flat state. -/
def shiftRowsIdx : List Nat := [0, 5, 10, 15, 4, 9, 14, 3, 8, 13, 2, 7, 12, 1, 6, 11]

/-- ShiftRows on the 16-byte state. -/
def shiftRows (s : List Nat) : List Nat :=
  shiftRowsIdx.map fun i => s.getD i 0

/-- MixColumns on one column. -/
def mixColumn (a b c d : Nat) : List Nat :=
  [mul2 a ^^^ mul3 b ^^^ c ^^^ d,
   a ^^^ mul2 b ^^^ mul3 c ^^^ d,
   a ^^^ b ^^^ mul2 c ^^^ mul3 d,
   mul3 a ^^^ b ^^^ c ^^^ mul2 d]

/-- MixColumns on the 16-byte state. -/
def mixColumns (s : List Nat) : List Nat :=
  mixColumn (s.getD 0 0) (s.getD 1 0) (s.getD 2 0) (s.getD 3 0) ++
  mixColumn (s.getD 4 0) (s.getD 5 0) (s.getD 6 0) (s.getD 7 0) ++
  mixColumn (s.getD 8 0) (s.getD 9 0) (s.getD 10 0) (s.getD 11 0) ++
  mixColumn (s.getD 12 0) (s.getD 13 0) (s.getD 14 0) (s.getD 15 0)

/-- One middle round. -/
def aesRound (s rk : List Nat) : List Nat :=
  addRoundKey (mixColumns (shiftRows (subBytes s))) rk

/-- The final round (no MixColumns). -/
def finalRound (s rk : List Nat) : List Nat :=
  addRoundKey (shiftRows (subBytes s)) rk

/-- AES block encryption: initial AddRoundKey, the middle rounds, the final round.
The number of rounds is derived from the key length (10/12/14 for 16/24/32-byte
keys), as in the `aes` crate's `Aes128`/`Aes192`/`Aes256`. -/
def aesEncryptBlock (key block : List Nat) : List Nat :=
  let rks := keySchedule key
  finalRound
    (((rks.drop 1).dropLast).foldl aesRound (addRoundKey block (rks.headD [])))
    (rks.getLastD [])

/-! ## CCM mode with a 16-byte tag (the `ccm` crate, RFC 3610, no associated data)

The source instantiates `Ccm<D, U16, N>` for `N` in `U7 .. U13`; the
associated data is always empty. `none` stands for the opaque `aead::Error`. -/

/-- The tag length fixed by the source's choice of `U16`. -/
def tagLength : Nat := 16

/-- Big-endian encoding of `n` in exactly `l` bytes. -/
def bytesBE : Nat → Nat → List Nat
  | 0, _ => []
  | l + 1, n => bytesBE l (n / 256) ++ [n % 256]

/-- Split a byte sequence into its successive 16-byte chunks (the last chunk
possibly shorter); the empty sequence has no chunks. -/
def chunks16 (l : List Nat) : List (List Nat) :=
  (List.range ((l.length + 15) / 16)).map fun i => (l.drop (16 * i)).take 16

/-- Zero-pad a block to 16 bytes. -/
def pad16 (b : List Nat) : List Nat := b ++ List.replicate (16 - b.length) 0

/-- Byte-wise XOR, truncating to the shorter argument. -/
def xorBytes (a b : List Nat) : List Nat := List.zipWith (· ^^^ ·) a b

/-- The CCM CBC-MAC: `X₁ = E(B₀)`, `Xᵢ₊₁ = E(Xᵢ ⊕ Bᵢ)` (RFC 3610 section 2.2),
computed as a fold from the zero block. -/
def cbcMac (enc : List Nat → List Nat) (blocks : List (List Nat)) : List Nat :=
  blocks.foldl (fun x b => enc (xorBytes x b)) (List.replicate 16 0)

/-- The CCM `B₀` block: flags byte, nonce, message length in `L = 15 − |nonce|`
bytes. With no associated data and a 16-byte tag the flags byte is
`8·((16−2)/2) + (L−1)`. -/
def b0Block (nonce : List Nat) (msgLen : Nat) : List Nat :=
  (8 * ((tagLength - 2) / 2) + (15 - nonce.length - 1)) ::
    nonce ++ bytesBE (15 - nonce.length) msgLen

/-- The CCM counter block `Aᵢ` (RFC 3610 section 2.3). -/
def ctrBlock (nonce : List Nat) (i : Nat) : List Nat :=
  (15 - nonce.length - 1) :: nonce ++ bytesBE (15 - nonce.length) i

/-- The CTR keystream for `n` payload blocks (counters `1 .. n`). -/
def keystream (enc : List Nat → List Nat) (nonce : List Nat) (n : Nat) : List Nat :=
  ((List.range n).map fun i => enc (ctrBlock nonce (i + 1))).flatten

/-- The transmitted authentication tag: the CBC-MAC of `B₀` and the padded
payload blocks, XORed with `S₀ = E(A₀)`. The tag is the full 16-byte block. -/
def ccmTag (enc : List Nat → List Nat) (nonce data : List Nat) : List Nat :=
  xorBytes (cbcMac enc (b0Block nonce data.length :: (chunks16 data).map pad16))
    (enc (ctrBlock nonce 0))

/-- CCM encryption: ciphertext (payload XOR keystream) followed by the tag.
The payload length must be representable in `L` bytes; otherwise the
operation fails with the opaque `aead::Error`. -/
def ccmEncryptCore (enc : List Nat → List Nat) (nonce data : List Nat) :
    Option (List Nat) :=
  if 256 ^ (15 - nonce.length) ≤ data.length then none
  else some (xorBytes data (keystream enc nonce ((data.length + 15) / 16)) ++
             ccmTag enc nonce data)

/-- CCM decryption: split off the trailing 16-byte tag (failing when the input
is shorter than the tag), recover the payload from the keystream, recompute the
tag over the recovered payload and verify it; any failure is the opaque
`aead::Error`. -/
def ccmDecryptCore (enc : List Nat → List Nat) (nonce input : List Nat) :
    Option (List Nat) :=
  if input.length < tagLength then none
  else if 256 ^ (15 - nonce.length) ≤ input.length - tagLength then none
  else if ccmTag enc nonce
      (xorBytes (input.take (input.length - tagLength))
        (keystream enc nonce ((input.length - tagLength + 15) / 16))) =
      input.drop (input.length - tagLength) then
    some (xorBytes (input.take (input.length - tagLength))
      (keystream enc nonce ((input.length - tagLength + 15) / 16)))
  else none

/-! ## The NASL value, error and register model

The value type, the error type and the named-argument accessor live in source
files outside the embedded ones (`error.rs`, `built_in_functions/cryptography/mod.rs`);
they are modelled from the specification where marked. -/

/-- The dynamic NASL value (the variants the crypto built-ins touch). -/
inductive NaslValue
  | String (s : String)
  | Data (d : List Nat)
  | Number (n : Int)
  | Boolean (b : Bool)
  | Null
deriving DecidableEq

/-- Modelled from the spec: the error kinds relevant to this core (`error.rs`
is not among the embedded sources): `WrongArgument` carrying parameter,
expected and actual renderings, and `GeneralError` carrying a message. The
tuple conversion `(parameter, expected, actual).into()` used at the iv-length
check maps onto `WrongArgument`. -/
inductive FunctionErrorKind
  | WrongArgument (parameter expected actual : String)
  | GeneralError (message : String)
deriving DecidableEq

/-- A `FunctionError` names the function that raised it plus an error kind. -/
structure FunctionError where
  function : String
  kind : FunctionErrorKind
deriving DecidableEq

/-- The named-argument register: a name-to-value binding scope. -/
abbrev Register := List (String × NaslValue)

/-- Look up a named argument in a register. -/
def Register.lookupNamed (r : Register) (name : String) : Option NaslValue :=
  (r.find? fun p => p.1 == name).map (fun p => p.2)

/-- UTF-8 encoding of one code point. -/
def utf8EncodeCharNat (c : Nat) : List Nat :=
  if c < 0x80 then [c]
  else if c < 0x800 then [0xc0 + c / 64, 0x80 + c % 64]
  else if c < 0x10000 then [0xe0 + c / 4096, 0x80 + c / 64 % 64, 0x80 + c % 64]
  else [0xf0 + c / 262144, 0x80 + c / 4096 % 64, 0x80 + c / 64 % 64, 0x80 + c % 64]

/-- The UTF-8 bytes of a string. -/
def strBytes (s : String) : List Nat :=
  s.data.flatMap fun ch => utf8EncodeCharNat ch.toNat

/-- Modelled from the spec: a string rendering of a supplied value, used in
`WrongArgument` reporting. -/
def renderValue : NaslValue → String
  | NaslValue.String s => s
  | NaslValue.Data _ => "data"
  | NaslValue.Number n => toString n
  | NaslValue.Boolean b => toString b
  | NaslValue.Null => "NULL"

/-- Modelled from the spec: the accessor `get_named_data` (defined in
`built_in_functions/cryptography/mod.rs`, not among the embedded sources).
A byte-sequence argument is returned as raw bytes; a textual argument is
coerced to its UTF-8 bytes; a missing required argument, or a value of any
other shape, fails with `WrongArgument` naming the parameter. -/
def get_named_data (register : Register) (key : String) (required : Bool)
    (function : String) : Except FunctionError (Option (List Nat)) :=
  match register.lookupNamed key with
  | some (NaslValue.Data d) => Except.ok (some d)
  | some (NaslValue.String s) => Except.ok (some (strBytes s))
  | some v =>
    Except.error ⟨function, FunctionErrorKind.WrongArgument key "string or data" (renderValue v)⟩
  | none =>
    if required then
      Except.error ⟨function, FunctionErrorKind.WrongArgument key "string or data" "missing"⟩
    else Except.ok none

/-- The encryption-or-decryption mode selector (`Crypt` from `cryptography/mod.rs`,
defined by the spec as a two-valued selector bound per function name). -/
inductive Crypt
  | Encrypt
  | Decrypt
deriving DecidableEq

/-- The outcome of the underlying `Ccm<D, U16, N>` operation: output bytes,
the opaque `aead::Error`, or a panic. `Ccm::new(key.into())` converts the key
slice with `GenericArray::from_slice`, which panics when the slice length
differs from the cipher's key size (the conversion is not fallible); the same
holds for the nonce conversion inside `encrypt`/`decrypt`. -/
inductive LowResult
  | panicked
  | err
  | ok (out : List Nat)
deriving DecidableEq

/-- `ccm_iv_len::<D, U16, N>` with `keySize` the key length of `D` and
`nonceSize` the runtime value of `N`: construct the cipher from the key
(panicking on a key-length mismatch) and run the bound mode over the data. -/
def ccm_iv_len (keySize nonceSize : Nat) (crypt : Crypt)
    (key nonce data : List Nat) : LowResult :=
  if key.length ≠ keySize then LowResult.panicked
  else if nonce.length ≠ nonceSize then LowResult.panicked
  else
    match crypt with
    | Crypt.Encrypt =>
      match ccmEncryptCore (aesEncryptBlock key) nonce data with
      | some out => LowResult.ok out
      | none => LowResult.err
    | Crypt.Decrypt =>
      match ccmDecryptCore (aesEncryptBlock key) nonce data with
      | some out => LowResult.ok out
      | none => LowResult.err

/-- The observable outcome of a built-in call: a value, a `FunctionError`, or
a crash (panic) inside the underlying primitive. -/
inductive CcmOutcome
  | panicked
  | ok (v : NaslValue)
  | err (e : FunctionError)
deriving DecidableEq

/-- The error handling at the end of `ccm`: success becomes a `Data` value and
any `aead::Error` becomes `GeneralError "Authentication failed"`; a panic
propagates. -/
def handleLow (res : LowResult) (function : String) : CcmOutcome :=
  match res with
  | LowResult.ok x => CcmOutcome.ok (NaslValue.Data x)
  | LowResult.err =>
    CcmOutcome.err ⟨function, FunctionErrorKind.GeneralError "Authentication failed"⟩
  | LowResult.panicked => CcmOutcome.panicked

/-- The switch of `ccm::<D>` on the iv length: each length in `[7, 13]` maps
to the matching compile-time nonce-size specialization of `ccm_iv_len`; the
default arm is the single place raising the configuration-range error. -/
def ccmDispatch (keySize : Nat) (crypt : Crypt) (function : String)
    (key data nonce : List Nat) : CcmOutcome :=
  match nonce.length with
  | 7 => handleLow (ccm_iv_len keySize 7 crypt key nonce data) function
  | 8 => handleLow (ccm_iv_len keySize 8 crypt key nonce data) function
  | 9 => handleLow (ccm_iv_len keySize 9 crypt key nonce data) function
  | 10 => handleLow (ccm_iv_len keySize 10 crypt key nonce data) function
  | 11 => handleLow (ccm_iv_len keySize 11 crypt key nonce data) function
  | 12 => handleLow (ccm_iv_len keySize 12 crypt key nonce data) function
  | 13 => handleLow (ccm_iv_len keySize 13 crypt key nonce data) function
  | _ =>
    CcmOutcome.err ⟨function,
      FunctionErrorKind.WrongArgument "length of iv" "between 7 and 13"
        (toString nonce.length)⟩

/-- The base function `ccm::<D>`: read the required named arguments `key`,
`data`, `iv` (in that order, with an early return on failure; the `.unwrap()`
on the accessor's `Option` is the `Except.ok none` arm), dispatch on the iv
length to the matching nonce-size specialization, and translate the result. -/
def ccm (keySize : Nat) (register : Register) (crypt : Crypt)
    (function : String) : CcmOutcome :=
  match get_named_data register "key" true function with
  | Except.error e => CcmOutcome.err e
  | Except.ok none => CcmOutcome.panicked
  | Except.ok (some key) =>
    match get_named_data register "data" true function with
    | Except.error e => CcmOutcome.err e
    | Except.ok none => CcmOutcome.panicked
    | Except.ok (some data) =>
      match get_named_data register "iv" true function with
      | Except.error e => CcmOutcome.err e
      | Except.ok none => CcmOutcome.panicked
      | Except.ok (some nonce) => ccmDispatch keySize crypt function key data nonce

/-- The uniform native-function shape: declared name, storage handle
(opaque, modelled as `Unit`), register. -/
abbrev NaslFunction := String → Unit → Register → CcmOutcome

/-- NASL built-in `aes128_ccm_encrypt`. -/
def aes128_ccm_encrypt : NaslFunction := fun _ _ register =>
  ccm 16 register Crypt.Encrypt "aes128_ccm_encrypt"

/-- NASL built-in `aes128_ccm_decrypt`. -/
def aes128_ccm_decrypt : NaslFunction := fun _ _ register =>
  ccm 16 register Crypt.Decrypt "aes128_ccm_decrypt"

/-- NASL built-in `aes192_ccm_encrypt`. -/
def aes192_ccm_encrypt : NaslFunction := fun _ _ register =>
  ccm 24 register Crypt.Encrypt "aes192_ccm_encrypt"

/-- NASL built-in `aes192_ccm_decrypt`. -/
def aes192_ccm_decrypt : NaslFunction := fun _ _ register =>
  ccm 24 register Crypt.Decrypt "aes192_ccm_decrypt"

/-- NASL built-in `aes256_ccm_encrypt`. -/
def aes256_ccm_encrypt : NaslFunction := fun _ _ register =>
  ccm 32 register Crypt.Encrypt "aes256_ccm_encrypt"

/-- NASL built-in `aes256_ccm_decrypt`. -/
def aes256_ccm_decrypt : NaslFunction := fun _ _ register =>
  ccm 32 register Crypt.Decrypt "aes256_ccm_decrypt"

/-- The name-to-entry-point lookup table of this family. -/
def lookup (key : String) : Option NaslFunction :=
  match key with
  | "aes128_ccm_encrypt" => some aes128_ccm_encrypt
  | "aes128_ccm_decrypt" => some aes128_ccm_decrypt
  | "aes192_ccm_encrypt" => some aes192_ccm_encrypt
  | "aes192_ccm_decrypt" => some aes192_ccm_decrypt
  | "aes256_ccm_encrypt" => some aes256_ccm_encrypt
  | "aes256_ccm_decrypt" => some aes256_ccm_decrypt
  | _ => none

/-- A register binding the three required arguments as raw byte data. -/
def mkRegister (key data iv : List Nat) : Register :=
  [("key", NaslValue.Data key), ("data", NaslValue.Data data),
   ("iv", NaslValue.Data iv)]

/-! ## The literal vector of the source's `aes128_ccm_crypt` unit test -/

/-- The test key, hex `d24a3d3dde8c84830280cb87abad0bb3`. -/
def tvKey : List Nat :=
  [210, 74, 61, 61, 222, 140, 132, 131, 2, 128, 203, 135, 171, 173, 11, 179]

/-- The test plaintext, hex `7c86135ed9c2a515aaae0e9a208133897269220f30870006`. -/
def tvData : List Nat :=
  [124, 134, 19, 94, 217, 194, 165, 21, 170, 174, 14, 154, 32, 129, 51, 137,
   114, 105, 34, 15, 48, 135, 0, 6]

/-- The 13-byte test iv, hex `f1100035bb24a8d26004e0e24b`. -/
def tvIv : List Nat :=
  [241, 16, 0, 53, 187, 36, 168, 210, 96, 4, 224, 226, 75]

/-- The expected ciphertext plus 16-byte tag, hex
`1faeb0ee2ca2cd52f0aa3966578344f24e69b742c4ab37ab1123301219c70599b7c373ad4b3ad67b`. -/
def tvOut : List Nat :=
  [31, 174, 176, 238, 44, 162, 205, 82, 240, 170, 57, 102, 87, 131, 68, 242,
   78, 105, 183, 66, 196, 171, 55, 171, 17, 35, 48, 18, 25, 199, 5, 153,
   183, 195, 115, 173, 75, 58, 214, 123]

/-! ## The outcome verification of `test_utils.rs`

`TestBuilder` registers one expectation per line of code; on drop it pulls the
produced outcome sequence and verifies it. Only the verification-relevant
state is modelled (lines, expectations, the `should_verify` flag); the
produced outcome sequence, computed in the source by `results()` through the
interpreter, is passed to `verify` explicitly. A panic is modelled as the
`panicked` outcome. -/

/-- The per-statement outcome consumed by the verifier
(`Result<NaslValue, FunctionErrorKind>`). -/
abbrev NaslResult := Except FunctionErrorKind NaslValue

/-- A registered expectation: an expected value (`ok`), an arbitrary predicate
(`check`), or no check (`run`). -/
inductive TestResult
  | Ok (v : NaslValue)
  | GenericCheck (f : NaslResult → Bool)
  | None

/-- Whether an expectation is `TestResult::None`. -/
def TestResult.isNoCheck : TestResult → Bool
  | TestResult.None => true
  | _ => false

/-- The verification-relevant state of a `TestBuilder`. -/
structure TestBuilder where
  lines : List String
  results : List TestResult
  should_verify : Bool

/-- The outcome of `verify`: silent success or a loud panic. -/
inductive VerifyOutcome
  | passed
  | panicked (message : String)

/-- `compare_result`: equality with the expected value for `Ok`, the
predicate's verdict for `GenericCheck`, unconditional success for `None`. -/
def compare_result (result : NaslResult) (reference : TestResult) : Bool :=
  match reference with
  | TestResult.Ok val =>
    match result with
    | Except.ok v => decide (v = val)
    | Except.error _ => false
  | TestResult.GenericCheck f => f result
  | TestResult.None => true

/-- `check_result`: panic (with a message naming the line) when the check
fails; the `None` arm is unreachable because `compare_result` accepts it. -/
def check_result (tb : TestBuilder) (result : NaslResult)
    (reference : TestResult) (line_count : Nat) : VerifyOutcome :=
  if compare_result result reference then VerifyOutcome.passed
  else
    match reference with
    | TestResult.Ok _ =>
      VerifyOutcome.panicked ("Mismatch in line " ++ toString line_count ++
        " with code \"" ++ tb.lines.getD line_count "" ++ "\"")
    | TestResult.GenericCheck _ =>
      VerifyOutcome.panicked ("Check failed in line " ++ toString line_count ++
        " with code \"" ++ tb.lines.getD line_count "" ++ "\"")
    | TestResult.None => VerifyOutcome.panicked "unreachable"

/-- The element-by-element loop of `verify`: results paired with expectations
in statement order; the first failing check panics. -/
def verifyLoop (tb : TestBuilder) : Nat → List (NaslResult × TestResult) → VerifyOutcome
  | _, [] => VerifyOutcome.passed
  | i, (r, ref) :: rest =>
    match check_result tb r ref i with
    | VerifyOutcome.passed => verifyLoop tb (i + 1) rest
    | VerifyOutcome.panicked m => VerifyOutcome.panicked m

/-- `TestBuilder::verify` over the produced outcome sequence: with
verification enabled, assert equal lengths (panicking otherwise), then check
each pair; with verification disabled (`run_all`), panic when any
expectation other than `None` was registered. -/
def TestBuilder.verify (tb : TestBuilder) (produced : List NaslResult) :
    VerifyOutcome :=
  if tb.should_verify then
    if produced.length = tb.results.length then
      verifyLoop tb 0 (produced.zip tb.results)
    else VerifyOutcome.panicked "assertion failed: results.len() == self.results.len()"
  else
    if tb.results.any (fun r => !(TestResult.isNoCheck r)) then
      VerifyOutcome.panicked ("Take care: Will not verify specified test result in this test, " ++
        "since run_all was called, which will mess with the line numbers.")
    else VerifyOutcome.passed

/-! ## Length facts about the embedded primitives -/

/-- The output of AES block encryption always has 16 bytes. -/
theorem aesEncryptBlock_length (key block : List Nat) :
    (aesEncryptBlock key block).length = 16 := by
  simp [aesEncryptBlock, finalRound, addRoundKey]

/-- FIPS 197, appendix C.1: the AES-128 example vector, validating the
embedding of the block cipher. -/
theorem aes128_fips197_vector :
    aesEncryptBlock
      [0x00, 0x01, 0x02, 0x03, 0x04, 0x05, 0x06, 0x07,
       0x08, 0x09, 0x0a, 0x0b, 0x0c, 0x0d, 0x0e, 0x0f]
      [0x00, 0x11, 0x22, 0x33, 0x44, 0x55, 0x66, 0x77,
       0x88, 0x99, 0xaa, 0xbb, 0xcc, 0xdd, 0xee, 0xff] =
    [0x69, 0xc4, 0xe0, 0xd8, 0x6a, 0x7b, 0x04, 0x30,
     0xd8, 0xcd, 0xb7, 0x80, 0x70, 0xb4, 0xc5, 0x5a] := by decide

/-- `xorBytes` truncates to the shorter operand. -/
theorem xorBytes_length (a b : List Nat) :
    (xorBytes a b).length = min a.length b.length :=
  List.length_zipWith _ _ _

/-- XOR with a keystream at least as long as the data is an involution. -/
theorem xorBytes_cancel (d : List Nat) : ∀ ks : List Nat,
    d.length ≤ ks.length → xorBytes (xorBytes d ks) ks = d := by
  induction d with
  | nil => intro ks _; simp [xorBytes]
  | cons a as ih =>
    intro ks h
    cases ks with
    | nil => simp at h
    | cons k kt =>
      have h' : as.length ≤ kt.length := by simp at h; omega
      simp only [xorBytes] at ih ⊢
      simp only [List.zipWith_cons_cons]
      rw [Nat.xor_cancel_right, ih kt h']

/-- The CBC-MAC state stays 16 bytes long. -/
theorem cbcMac_length (enc : List Nat → List Nat)
    (henc : ∀ b, (enc b).length = 16) (blocks : List (List Nat)) :
    (cbcMac enc blocks).length = 16 := by
  rw [cbcMac]
  have h : ∀ (bs : List (List Nat)) (init : List Nat), init.length = 16 →
      (bs.foldl (fun x b => enc (xorBytes x b)) init).length = 16 := by
    intro bs
    induction bs with
    | nil => intro init hi; simpa using hi
    | cons b bt ih => intro init hi; exact ih _ (henc _)
  exact h _ _ (by simp)

/-- The keystream for `n` blocks has `16 · n` bytes. -/
theorem keystream_length (enc : List Nat → List Nat)
    (henc : ∀ b, (enc b).length = 16) (nonce : List Nat) (n : Nat) :
    (keystream enc nonce n).length = 16 * n := by
  induction n with
  | zero => rfl
  | succ m ih =>
    rw [keystream] at ih ⊢
    rw [List.range_succ, List.map_append, List.flatten_append,
        List.length_append, ih]
    simp [henc, Nat.mul_succ]

/-- The transmitted tag has 16 bytes. -/
theorem ccmTag_length (enc : List Nat → List Nat)
    (henc : ∀ b, (enc b).length = 16) (nonce data : List Nat) :
    (ccmTag enc nonce data).length = 16 := by
  rw [ccmTag, xorBytes_length, cbcMac_length enc henc, henc]
  simp

/-! ## The CCM round trip -/

/-- For any block-size-preserving cipher and any payload whose length fits in
`L = 15 − |nonce|` bytes, CCM encryption succeeds with ciphertext-plus-tag and
CCM decryption of that output restores the payload. -/
theorem ccm_core_round_trip (enc : List Nat → List Nat)
    (henc : ∀ b, (enc b).length = 16) (nonce data : List Nat)
    (hlen : data.length < 256 ^ (15 - nonce.length)) :
    ccmEncryptCore enc nonce data =
        some (xorBytes data (keystream enc nonce ((data.length + 15) / 16)) ++
          ccmTag enc nonce data) ∧
    ccmDecryptCore enc nonce
        (xorBytes data (keystream enc nonce ((data.length + 15) / 16)) ++
          ccmTag enc nonce data) =
      some data := by
  have hksl : (keystream enc nonce ((data.length + 15) / 16)).length =
      16 * ((data.length + 15) / 16) := keystream_length enc henc nonce _
  have hdk : data.length ≤ (keystream enc nonce ((data.length + 15) / 16)).length := by
    rw [hksl]; omega
  have hctl : (xorBytes data (keystream enc nonce ((data.length + 15) / 16))).length
      = data.length := by
    rw [xorBytes_length]; omega
  have htagl : (ccmTag enc nonce data).length = 16 :=
    ccmTag_length enc henc nonce data
  constructor
  · rw [ccmEncryptCore, if_neg (by omega)]
  · unfold ccmDecryptCore
    simp only [List.length_append, hctl, htagl, tagLength, Nat.add_sub_cancel]
    rw [if_neg (by omega), if_neg (by omega),
        List.take_left' hctl, List.drop_left' hctl,
        xorBytes_cancel data _ hdk, if_pos rfl]

/-! ## The `ccm` dispatcher -/

/-- Reading the three `Data` arguments from `mkRegister` always succeeds, so
`ccm` reduces to the iv-length dispatch. -/
theorem ccm_mkRegister (keySize : Nat) (crypt : Crypt) (f : String)
    (key data iv : List Nat) :
    ccm keySize (mkRegister key data iv) crypt f =
      ccmDispatch keySize crypt f key data iv := rfl

/-- Every iv length in `[7, 13]` selects the specialization of that exact
nonce size. -/
theorem ccmDispatch_in_range (keySize : Nat) (crypt : Crypt) (f : String)
    (key data nonce : List Nat) (h7 : 7 ≤ nonce.length) (h13 : nonce.length ≤ 13) :
    ccmDispatch keySize crypt f key data nonce =
      handleLow (ccm_iv_len keySize nonce.length crypt key nonce data) f := by
  have hcases : nonce.length = 7 ∨ nonce.length = 8 ∨ nonce.length = 9 ∨
      nonce.length = 10 ∨ nonce.length = 11 ∨ nonce.length = 12 ∨
      nonce.length = 13 := by omega
  unfold ccmDispatch
  rcases hcases with h | h | h | h | h | h | h <;> rw [h]

/-- Every iv length outside `[7, 13]` takes the default arm: the
configuration-range error. -/
theorem ccmDispatch_out_of_range (keySize : Nat) (crypt : Crypt) (f : String)
    (key data nonce : List Nat) (h : nonce.length < 7 ∨ 13 < nonce.length) :
    ccmDispatch keySize crypt f key data nonce =
      CcmOutcome.err ⟨f, FunctionErrorKind.WrongArgument "length of iv"
        "between 7 and 13" (toString nonce.length)⟩ := by
  unfold ccmDispatch
  split <;> first | rfl | omega

/-- When the key length matches the cipher's key size, the encrypt
specialization returns whatever the CCM core returns. -/
theorem ccm_iv_len_encrypt_eq (keySize n : Nat) (key nonce data out : List Nat)
    (hk : key.length = keySize) (hn : nonce.length = n)
    (h : ccmEncryptCore (aesEncryptBlock key) nonce data = some out) :
    ccm_iv_len keySize n Crypt.Encrypt key nonce data = LowResult.ok out := by
  unfold ccm_iv_len
  rw [if_neg (by omega), if_neg (by omega), h]

/-- When the key length matches the cipher's key size, the decrypt
specialization returns whatever the CCM core returns. -/
theorem ccm_iv_len_decrypt_eq (keySize n : Nat) (key nonce input out : List Nat)
    (hk : key.length = keySize) (hn : nonce.length = n)
    (h : ccmDecryptCore (aesEncryptBlock key) nonce input = some out) :
    ccm_iv_len keySize n Crypt.Decrypt key nonce input = LowResult.ok out := by
  unfold ccm_iv_len
  rw [if_neg (by omega), if_neg (by omega), h]

/-- The shape of every error raised by the argument accessor: it names the
calling function and the parameter it was reading. -/
theorem get_named_data_error_shape (reg : Register) (p g : String)
    (required : Bool) (e : FunctionError)
    (h : get_named_data reg p required g = Except.error e) :
    ∃ expected actual,
      e = ⟨g, FunctionErrorKind.WrongArgument p expected actual⟩ := by
  unfold get_named_data at h
  split at h
  · cases h
  · cases h
  · injection h with h'
    exact ⟨_, _, h'.symm⟩
  · split at h
    · injection h with h'
      exact ⟨_, _, h'.symm⟩
    · cases h

/-! ## The claimed properties -/

/-- C1 (amended): for every variant key size in {16, 24, 32}, every key of
that length, every iv of length in `[7, 13]` and every byte sequence `data`
whose length is below the CCM payload bound `256 ^ (15 − |iv|)` (including the
empty sequence), decrypting the output of the matching encrypt call with the
same key and iv returns `Ok` of exactly the original data. -/
theorem aes_ccm_round_trip (ks : Nat) (_hks : ks = 16 ∨ ks = 24 ∨ ks = 32)
    (key iv data : List Nat) (hkey : key.length = ks)
    (h7 : 7 ≤ iv.length) (h13 : iv.length ≤ 13)
    (hdata : data.length < 256 ^ (15 - iv.length)) (encName decName : String) :
    ∃ out : List Nat,
      ccm ks (mkRegister key data iv) Crypt.Encrypt encName =
        CcmOutcome.ok (NaslValue.Data out) ∧
      ccm ks (mkRegister key out iv) Crypt.Decrypt decName =
        CcmOutcome.ok (NaslValue.Data data) := by
  obtain ⟨henc, hdec⟩ := ccm_core_round_trip (aesEncryptBlock key)
    (fun b => aesEncryptBlock_length key b) iv data hdata
  refine ⟨xorBytes data (keystream (aesEncryptBlock key) iv ((data.length + 15) / 16)) ++
    ccmTag (aesEncryptBlock key) iv data, ?_, ?_⟩
  · rw [ccm_mkRegister, ccmDispatch_in_range _ _ _ _ _ _ h7 h13,
      ccm_iv_len_encrypt_eq ks iv.length key iv data _ hkey rfl henc]
    rfl
  · rw [ccm_mkRegister, ccmDispatch_in_range _ _ _ _ _ _ h7 h13,
      ccm_iv_len_decrypt_eq ks iv.length key iv _ data hkey rfl hdec]
    rfl

/-- C1 witness: a concrete instance of the round trip. -/
theorem aes_ccm_round_trip_witness :
    ∃ out : List Nat,
      ccm 16 (mkRegister (List.replicate 16 0) [1, 2, 3] (List.replicate 7 0))
          Crypt.Encrypt "aes128_ccm_encrypt" =
        CcmOutcome.ok (NaslValue.Data out) ∧
      ccm 16 (mkRegister (List.replicate 16 0) out (List.replicate 7 0))
          Crypt.Decrypt "aes128_ccm_decrypt" =
        CcmOutcome.ok (NaslValue.Data [1, 2, 3]) :=
  aes_ccm_round_trip 16 (Or.inl rfl) (List.replicate 16 0) (List.replicate 7 0)
    [1, 2, 3] (by decide) (by decide) (by decide) (by decide)
    "aes128_ccm_encrypt" "aes128_ccm_decrypt"

/-- C1 counterexample to the unbounded claim: with a 13-byte iv the CCM
payload length bound is `256^2 = 65536` bytes, so a 65536-byte payload makes
the encrypt call fail with the authentication-failure error — there is no
output to round-trip. -/
theorem aes_ccm_round_trip_unbounded_cex :
    ccm 16 (mkRegister (List.replicate 16 0) (List.replicate 65536 1)
        (List.replicate 13 0)) Crypt.Encrypt "aes128_ccm_encrypt" =
      CcmOutcome.err ⟨"aes128_ccm_encrypt",
        FunctionErrorKind.GeneralError "Authentication failed"⟩ ∧
    ¬ ∃ out : List Nat,
      ccm 16 (mkRegister (List.replicate 16 0) (List.replicate 65536 1)
          (List.replicate 13 0)) Crypt.Encrypt "aes128_ccm_encrypt" =
        CcmOutcome.ok (NaslValue.Data out) := by
  have hiv : (List.replicate 13 (0 : Nat)).length = 13 := List.length_replicate _ _
  have hcore : ccmEncryptCore (aesEncryptBlock (List.replicate 16 0))
      (List.replicate 13 0) (List.replicate 65536 1) = none := by
    unfold ccmEncryptCore
    simp only [hiv, List.length_replicate]
    rw [if_pos (by norm_num)]
  have hlow : ccm_iv_len 16 13 Crypt.Encrypt (List.replicate 16 0)
      (List.replicate 13 0) (List.replicate 65536 1) = LowResult.err := by
    unfold ccm_iv_len
    rw [if_neg (by simp), if_neg (by simp), hcore]
  have h : ccm 16 (mkRegister (List.replicate 16 0) (List.replicate 65536 1)
      (List.replicate 13 0)) Crypt.Encrypt "aes128_ccm_encrypt" =
      CcmOutcome.err ⟨"aes128_ccm_encrypt",
        FunctionErrorKind.GeneralError "Authentication failed"⟩ := by
    rw [ccm_mkRegister,
      ccmDispatch_in_range _ _ _ _ _ _ (by simp [hiv]) (by simp [hiv]),
      hiv, hlow]
    rfl
  refine ⟨h, ?_⟩
  rintro ⟨out, hout⟩
  rw [h] at hout
  cases hout

/-- C3: an iv length outside `[7, 13]` yields the configuration-range error
naming "length of iv", "between 7 and 13" and the observed length — for every
key and data, before any cipher context exists; every iv length inside the
range (including 7 and 13) proceeds to the nonce-size specialization of that
exact length. -/
theorem iv_length_range_check (ks : Nat) (crypt : Crypt) (f : String)
    (key data iv : List Nat) :
    (iv.length < 7 ∨ 13 < iv.length →
      ccm ks (mkRegister key data iv) crypt f =
        CcmOutcome.err ⟨f, FunctionErrorKind.WrongArgument "length of iv"
          "between 7 and 13" (toString iv.length)⟩) ∧
    (7 ≤ iv.length → iv.length ≤ 13 →
      ccm ks (mkRegister key data iv) crypt f =
        handleLow (ccm_iv_len ks iv.length crypt key iv data) f) := by
  constructor
  · intro h
    rw [ccm_mkRegister]
    exact ccmDispatch_out_of_range ks crypt f key data iv h
  · intro h7 h13
    rw [ccm_mkRegister]
    exact ccmDispatch_in_range ks crypt f key data iv h7 h13

/-- C3 witness: iv length 6 is rejected with the range error; iv length 7
reaches the nonce-size-7 specialization. -/
theorem iv_length_range_check_witness :
    ccm 16 (mkRegister (List.replicate 16 0) [] (List.replicate 6 0))
        Crypt.Encrypt "aes128_ccm_encrypt" =
      CcmOutcome.err ⟨"aes128_ccm_encrypt", FunctionErrorKind.WrongArgument
        "length of iv" "between 7 and 13" (toString (List.replicate 6 0).length)⟩ ∧
    ccm 16 (mkRegister (List.replicate 16 0) [] (List.replicate 7 0))
        Crypt.Encrypt "aes128_ccm_encrypt" =
      handleLow (ccm_iv_len 16 (List.replicate 7 0).length Crypt.Encrypt
        (List.replicate 16 0) (List.replicate 7 0) []) "aes128_ccm_encrypt" :=
  ⟨(iv_length_range_check 16 Crypt.Encrypt "aes128_ccm_encrypt"
      (List.replicate 16 0) [] (List.replicate 6 0)).1 (by decide),
   (iv_length_range_check 16 Crypt.Encrypt "aes128_ccm_encrypt"
      (List.replicate 16 0) [] (List.replicate 7 0)).2 (by decide) (by decide)⟩

/-- C4 (divergence witness): a 15-byte key passed to the 128-bit variant with
an in-range iv makes the call panic — `Ccm::new(key.into())` converts the key
slice with the infallible `GenericArray::from_slice`, which panics on a length
mismatch — instead of returning a classified `FunctionError`. -/
theorem key_length_mismatch_panics :
    aes128_ccm_encrypt "aes128_ccm_encrypt" ()
      (mkRegister (List.replicate 15 0) [1, 2, 3] (List.replicate 13 0)) =
      CcmOutcome.panicked := by decide

/-- C5 (amended): whenever the underlying cryptographic operation fails, the
call returns a `FunctionError` carrying the calling function's name and the
kind `GeneralError` with the single fixed message "Authentication failed";
the `aead::Error` value itself never escapes and no cause-specific diagnosis
is produced. -/
theorem auth_failure_single_message (ks : Nat) (crypt : Crypt) (f : String)
    (key data iv : List Nat) (h7 : 7 ≤ iv.length) (h13 : iv.length ≤ 13)
    (herr : ccm_iv_len ks iv.length crypt key iv data = LowResult.err) :
    ccm ks (mkRegister key data iv) crypt f =
      CcmOutcome.err ⟨f, FunctionErrorKind.GeneralError "Authentication failed"⟩ := by
  rw [ccm_mkRegister, ccmDispatch_in_range ks crypt f key data iv h7 h13, herr]
  rfl

/-- C5 witness: decrypting an input shorter than the tag fails and surfaces
as the fixed general error. -/
theorem auth_failure_single_message_witness :
    ccm 16 (mkRegister (List.replicate 16 0) [] (List.replicate 7 0))
        Crypt.Decrypt "aes128_ccm_decrypt" =
      CcmOutcome.err ⟨"aes128_ccm_decrypt",
        FunctionErrorKind.GeneralError "Authentication failed"⟩ :=
  auth_failure_single_message 16 Crypt.Decrypt "aes128_ccm_decrypt"
    (List.replicate 16 0) [] (List.replicate 7 0) (by decide) (by decide)
    (by decide)

/-- C5 counterexample to the claimed message: the fixed message is
"Authentication failed" (capital A), not the claimed "authentication failed". -/
theorem auth_failure_message_case_cex :
    aes128_ccm_decrypt "aes128_ccm_decrypt" ()
        (mkRegister (List.replicate 16 0) [] (List.replicate 7 0)) =
      CcmOutcome.err ⟨"aes128_ccm_decrypt",
        FunctionErrorKind.GeneralError "Authentication failed"⟩ ∧
    FunctionErrorKind.GeneralError "Authentication failed" ≠
      FunctionErrorKind.GeneralError "authentication failed" :=
  ⟨by decide, by decide⟩

/-- C6: omitting `key`, `data` or `iv` fails with `WrongArgument` naming that
specific missing parameter, whatever the other two arguments hold — no
cryptographic computation is involved. -/
theorem missing_argument_names_parameter (ks : Nat) (crypt : Crypt)
    (f : String) (key data iv : List Nat) :
    ccm ks [("data", NaslValue.Data data), ("iv", NaslValue.Data iv)] crypt f =
      CcmOutcome.err ⟨f,
        FunctionErrorKind.WrongArgument "key" "string or data" "missing"⟩ ∧
    ccm ks [("key", NaslValue.Data key), ("iv", NaslValue.Data iv)] crypt f =
      CcmOutcome.err ⟨f,
        FunctionErrorKind.WrongArgument "data" "string or data" "missing"⟩ ∧
    ccm ks [("key", NaslValue.Data key), ("data", NaslValue.Data data)] crypt f =
      CcmOutcome.err ⟨f,
        FunctionErrorKind.WrongArgument "iv" "string or data" "missing"⟩ :=
  ⟨rfl, rfl, rfl⟩

/-- C7: on the literal 128-bit scenario of the source's unit test,
`aes128_ccm_encrypt` yields exactly the expected ciphertext-plus-tag, and
`aes128_ccm_decrypt` on that output with the same key and iv yields back
exactly the original plaintext. -/
theorem aes128_ccm_literal_vector :
    aes128_ccm_encrypt "aes128_ccm_encrypt" () (mkRegister tvKey tvData tvIv) =
      CcmOutcome.ok (NaslValue.Data tvOut) ∧
    aes128_ccm_decrypt "aes128_ccm_decrypt" () (mkRegister tvKey tvOut tvIv) =
      CcmOutcome.ok (NaslValue.Data tvData) :=
  ⟨by decide, by decide⟩

/-- C8: the lookup table maps exactly the six `aesNNN_ccm` names, each to the
entry point bound to that key size and that one mode; every other string maps
to `None`. (The mapping is a pure function, so it is trivially unchanged
across calls.) -/
theorem lookup_maps_exactly_six_names :
    (lookup "aes128_ccm_encrypt" = some aes128_ccm_encrypt ∧
     lookup "aes128_ccm_decrypt" = some aes128_ccm_decrypt ∧
     lookup "aes192_ccm_encrypt" = some aes192_ccm_encrypt ∧
     lookup "aes192_ccm_decrypt" = some aes192_ccm_decrypt ∧
     lookup "aes256_ccm_encrypt" = some aes256_ccm_encrypt ∧
     lookup "aes256_ccm_decrypt" = some aes256_ccm_decrypt) ∧
    ((∀ n s r, aes128_ccm_encrypt n s r = ccm 16 r Crypt.Encrypt "aes128_ccm_encrypt") ∧
     (∀ n s r, aes128_ccm_decrypt n s r = ccm 16 r Crypt.Decrypt "aes128_ccm_decrypt") ∧
     (∀ n s r, aes192_ccm_encrypt n s r = ccm 24 r Crypt.Encrypt "aes192_ccm_encrypt") ∧
     (∀ n s r, aes192_ccm_decrypt n s r = ccm 24 r Crypt.Decrypt "aes192_ccm_decrypt") ∧
     (∀ n s r, aes256_ccm_encrypt n s r = ccm 32 r Crypt.Encrypt "aes256_ccm_encrypt") ∧
     (∀ n s r, aes256_ccm_decrypt n s r = ccm 32 r Crypt.Decrypt "aes256_ccm_decrypt")) ∧
    (∀ s : String,
      s ∉ ["aes128_ccm_encrypt", "aes128_ccm_decrypt", "aes192_ccm_encrypt",
           "aes192_ccm_decrypt", "aes256_ccm_encrypt", "aes256_ccm_decrypt"] →
      lookup s = none) := by
  refine ⟨⟨rfl, rfl, rfl, rfl, rfl, rfl⟩,
    ⟨fun nm sk rg => rfl, fun nm sk rg => rfl, fun nm sk rg => rfl,
     fun nm sk rg => rfl, fun nm sk rg => rfl, fun nm sk rg => rfl⟩, ?_⟩
  intro s hs
  simp only [List.mem_cons, List.not_mem_nil, or_false, not_or] at hs
  obtain ⟨h1, h2, h3, h4, h5, h6⟩ := hs
  unfold lookup
  split <;> simp_all

/-- C8 witness: a name outside the six maps to `None`. -/
theorem lookup_maps_exactly_six_names_witness :
    lookup "hexstr_to_data" = none :=
  lookup_maps_exactly_six_names.2.2 "hexstr_to_data" (by decide)

/-- A check passes exactly when `compare_result` accepts the pair. -/
theorem check_result_passed_iff (tb : TestBuilder) (r : NaslResult)
    (ref : TestResult) (i : Nat) :
    check_result tb r ref i = VerifyOutcome.passed ↔
      compare_result r ref = true := by
  unfold check_result
  cases h : compare_result r ref
  · simp only [h, Bool.false_eq_true, if_false]
    cases ref <;> simp
  · simp [h]

/-- The verification loop passes exactly when every produced-expected pair
passes its check. -/
theorem verifyLoop_passed_iff (tb : TestBuilder) :
    ∀ (l : List (NaslResult × TestResult)) (i : Nat),
      verifyLoop tb i l = VerifyOutcome.passed ↔
        ∀ p ∈ l, compare_result p.1 p.2 = true := by
  intro l
  induction l with
  | nil => intro i; simp [verifyLoop]
  | cons hd tl ih =>
    intro i
    obtain ⟨r, ref⟩ := hd
    unfold verifyLoop
    cases hcr : check_result tb r ref i with
    | passed =>
      have hc : compare_result r ref = true :=
        (check_result_passed_iff tb r ref i).mp hcr
      simp only [ih (i + 1), List.mem_cons]
      constructor
      · rintro h p (rfl | hp)
        · exact hc
        · exact h p hp
      · intro h p hp; exact h p (Or.inr hp)
    | panicked m =>
      have hc : ¬ compare_result r ref = true := fun h =>
        VerifyOutcome.noConfusion
          (((check_result_passed_iff tb r ref i).mpr h).symm.trans hcr)
      constructor
      · intro h; exact VerifyOutcome.noConfusion h
      · intro h; exact absurd (h (r, ref) (List.mem_cons_self _ _)) hc

/-- C9: with verification enabled, `verify` succeeds silently exactly when
the produced outcome count equals the registered expectation count and every
produced outcome passes its expectation (in statement order); expectations
registered without a check pass unconditionally; every other case is a loud
panic, never a silent success. -/
theorem verify_passes_iff (tb : TestBuilder) (produced : List NaslResult)
    (h : tb.should_verify = true) :
    (tb.verify produced = VerifyOutcome.passed ↔
      produced.length = tb.results.length ∧
        ∀ p ∈ produced.zip tb.results, compare_result p.1 p.2 = true) ∧
    (∀ r : NaslResult, compare_result r TestResult.None = true) ∧
    (∀ m : String, VerifyOutcome.panicked m ≠ VerifyOutcome.passed) := by
  refine ⟨?_, fun r => rfl, fun m hm => VerifyOutcome.noConfusion hm⟩
  unfold TestBuilder.verify
  rw [if_pos h]
  by_cases hl : produced.length = tb.results.length
  · rw [if_pos hl, verifyLoop_passed_iff]
    simp [hl]
  · rw [if_neg hl]
    constructor
    · intro hcon; exact absurd hcon (by simp)
    · rintro ⟨h1, -⟩; exact absurd h1 hl

/-- C9 witness: the empty test builder with verification enabled. -/
theorem verify_passes_iff_witness :
    ((TestBuilder.mk [] [] true).verify [] = VerifyOutcome.passed ↔
      ([] : List NaslResult).length = ([] : List TestResult).length ∧
        ∀ p ∈ ([] : List NaslResult).zip ([] : List TestResult),
          compare_result p.1 p.2 = true) ∧
    (∀ r : NaslResult, compare_result r TestResult.None = true) ∧
    (∀ m : String, VerifyOutcome.panicked m ≠ VerifyOutcome.passed) :=
  verify_passes_iff ⟨[], [], true⟩ [] rfl

/-- C10: the three required arguments are read in the fixed order `key`,
`data`, `iv`; every accessor failure names the parameter being read, the
first failing read in that order determines the returned error, and the
iv-length dispatch is reached exactly through a register from which all three
reads succeed. -/
theorem argument_read_order (ks : Nat) (crypt : Crypt) (f : String)
    (reg : Register) :
    (∀ (p g : String) (e : FunctionError),
      get_named_data reg p true g = Except.error e →
      ∃ expected actual,
        e = ⟨g, FunctionErrorKind.WrongArgument p expected actual⟩) ∧
    (∀ e, get_named_data reg "key" true f = Except.error e →
      ccm ks reg crypt f = CcmOutcome.err e) ∧
    (∀ key e, get_named_data reg "key" true f = Except.ok (some key) →
      get_named_data reg "data" true f = Except.error e →
      ccm ks reg crypt f = CcmOutcome.err e) ∧
    (∀ key data e, get_named_data reg "key" true f = Except.ok (some key) →
      get_named_data reg "data" true f = Except.ok (some data) →
      get_named_data reg "iv" true f = Except.error e →
      ccm ks reg crypt f = CcmOutcome.err e) ∧
    (∀ key data iv, get_named_data reg "key" true f = Except.ok (some key) →
      get_named_data reg "data" true f = Except.ok (some data) →
      get_named_data reg "iv" true f = Except.ok (some iv) →
      ccm ks reg crypt f = ccmDispatch ks crypt f key data iv) := by
  refine ⟨fun p g e h => get_named_data_error_shape reg p g true e h,
    ?_, ?_, ?_, ?_⟩
  · intro e h
    unfold ccm
    rw [h]
  · intro key e h1 h2
    unfold ccm
    rw [h1, h2]
  · intro key data e h1 h2 h3
    unfold ccm
    rw [h1, h2, h3]
  · intro key data iv h1 h2 h3
    unfold ccm
    rw [h1, h2, h3]

/-- C10 witness: the empty register fails on `key` first; a register holding
all three arguments reaches the dispatch. -/
theorem argument_read_order_witness :
    ccm 16 ([] : Register) Crypt.Encrypt "aes128_ccm_encrypt" =
      CcmOutcome.err ⟨"aes128_ccm_encrypt",
        FunctionErrorKind.WrongArgument "key" "string or data" "missing"⟩ ∧
    ccm 16 (mkRegister [] [] []) Crypt.Encrypt "aes128_ccm_encrypt" =
      ccmDispatch 16 Crypt.Encrypt "aes128_ccm_encrypt" [] [] [] :=
  ⟨(argument_read_order 16 Crypt.Encrypt "aes128_ccm_encrypt" []).2.1
      ⟨"aes128_ccm_encrypt",
        FunctionErrorKind.WrongArgument "key" "string or data" "missing"⟩ rfl,
   (argument_read_order 16 Crypt.Encrypt "aes128_ccm_encrypt"
      (mkRegister [] [] [])).2.2.2.2 [] [] [] rfl rfl rfl⟩

end AesCcmSpec
